import Mathlib

/-!
Verification of the AI Orchestration & Progress State Engine of the
`artifact_artificer` application.  The definitions below are a shallow
embedding of the TypeScript source: pure helpers become Lean functions,
the asynchronous service calls are modelled by passing each remote
outcome explicitly as a parameter (`none` = the call threw / the stage
failed), and JavaScript objects parsed from JSON are modelled by an
executable `JsonValue` type together with a JSON parser mirroring
`JSON.parse`.
-/

/-! ## Characters and small string helpers -/

/-- The opening curly brace character. -/
def lbrace : Char := Char.ofNat 123

/-- The closing curly brace character. -/
def rbrace : Char := Char.ofNat 125

/-- JSON whitespace accepted by `JSON.parse`: space, tab, newline, carriage return. -/
def isJsonWs (c : Char) : Bool :=
  c = ' ' || c = Char.ofNat 9 || c = Char.ofNat 10 || c = Char.ofNat 13

/-- Drop leading JSON whitespace. -/
def skipWs : List Char → List Char
  | [] => []
  | c :: cs => if isJsonWs c then skipWs cs else c :: cs

/-- Decimal digit test. -/
def isJsonDigit (c : Char) : Bool := '0' ≤ c && c ≤ '9'

/-- Value of a decimal digit character. -/
def digitVal (c : Char) : Nat := c.toNat - 48

/-- Value of a hexadecimal digit character, if it is one. -/
def hexVal (c : Char) : Option Nat :=
  if '0' ≤ c && c ≤ '9' then some (c.toNat - 48)
  else if 'a' ≤ c && c ≤ 'f' then some (c.toNat - 87)
  else if 'A' ≤ c && c ≤ 'F' then some (c.toNat - 55)
  else none

/-- Numeric value of a list of decimal digits. -/
def digitsToNat (ds : List Char) : Nat := ds.foldl (fun a c => a * 10 + digitVal c) 0

/-! ## JSON values

`JsonValue` models the result of `JSON.parse`.  A JSON number literal is
an exact decimal, represented as mantissa `m` and decimal exponent `e`
(value `m * 10 ^ e`); the examples in this development only use integers. -/

inductive JsonValue where
  | null : JsonValue
  | bool : Bool → JsonValue
  | num : Int → Int → JsonValue
  | str : String → JsonValue
  | arr : List JsonValue → JsonValue
  | obj : List (String × JsonValue) → JsonValue
deriving Inhabited

/-! ## A JSON parser modelling `JSON.parse`

Fuel-based recursive descent over the character list.  `JSON.parse`
accepts exactly the JSON grammar: literals `null`/`true`/`false`,
strings with escapes, numbers (no leading zeros, optional fraction and
exponent), arrays and objects, with surrounding whitespace and nothing
else in the input. -/

/-- Parse the body of a JSON string after the opening quote, accumulating
characters in reverse.  Returns the string and the input after the
closing quote. -/
def parseStringRest : Nat → List Char → List Char → Option (String × List Char)
  | 0, _, _ => none
  | fuel + 1, acc, cs =>
    match cs with
    | [] => none
    | c :: rest =>
      if c = '"' then some (String.mk acc.reverse, rest)
      else if c = '\\' then
        match rest with
        | [] => none
        | e :: rest2 =>
          if e = '"' then parseStringRest fuel ('"' :: acc) rest2
          else if e = '\\' then parseStringRest fuel ('\\' :: acc) rest2
          else if e = '/' then parseStringRest fuel ('/' :: acc) rest2
          else if e = 'b' then parseStringRest fuel (Char.ofNat 8 :: acc) rest2
          else if e = 'f' then parseStringRest fuel (Char.ofNat 12 :: acc) rest2
          else if e = 'n' then parseStringRest fuel (Char.ofNat 10 :: acc) rest2
          else if e = 'r' then parseStringRest fuel (Char.ofNat 13 :: acc) rest2
          else if e = 't' then parseStringRest fuel (Char.ofNat 9 :: acc) rest2
          else if e = 'u' then
            match rest2 with
            | h1 :: h2 :: h3 :: h4 :: rest3 =>
              match hexVal h1, hexVal h2, hexVal h3, hexVal h4 with
              | some a, some b, some c2, some d =>
                parseStringRest fuel (Char.ofNat (a * 4096 + b * 256 + c2 * 16 + d) :: acc) rest3
              | _, _, _, _ => none
            | _ => none
          else none
      else if c.toNat < 32 then none
      else parseStringRest fuel (c :: acc) rest

/-- Parse an optional fraction part `.digits`; returns the fraction digits. -/
def parseFrac (cs : List Char) : Option (List Char × List Char) :=
  match cs with
  | [] => some ([], [])
  | c :: rest =>
    if c = '.' then
      let ds := rest.takeWhile isJsonDigit
      if ds.isEmpty then none else some (ds, rest.dropWhile isJsonDigit)
    else some ([], c :: rest)

/-- Parse an optional exponent part `e[+-]digits`; returns the signed exponent. -/
def parseExp (cs : List Char) : Option (Int × List Char) :=
  match cs with
  | [] => some (0, [])
  | c :: rest =>
    if c = 'e' || c = 'E' then
      let signAndRest : Int × List Char :=
        match rest with
        | [] => (1, [])
        | s :: r2 => if s = '+' then (1, r2) else if s = '-' then (-1, r2) else (1, s :: r2)
      let ds := signAndRest.2.takeWhile isJsonDigit
      if ds.isEmpty then none
      else some (signAndRest.1 * (digitsToNat ds : Int), signAndRest.2.dropWhile isJsonDigit)
    else some (0, c :: rest)

/-- Parse a JSON number literal. -/
def parseNumber (cs : List Char) : Option (JsonValue × List Char) :=
  let signAndRest : Bool × List Char :=
    match cs with
    | [] => (false, [])
    | c :: rest => if c = '-' then (true, rest) else (false, c :: rest)
  let intDs := signAndRest.2.takeWhile isJsonDigit
  if intDs.isEmpty then none
  else if intDs.length ≥ 2 && intDs.headD 'x' = '0' then none
  else
    let cs2 := signAndRest.2.dropWhile isJsonDigit
    match parseFrac cs2 with
    | none => none
    | some (fracDs, cs3) =>
      match parseExp cs3 with
      | none => none
      | some (e, cs4) =>
        let mNat := digitsToNat (intDs ++ fracDs)
        let m : Int := if signAndRest.1 then -(mNat : Int) else (mNat : Int)
        some (JsonValue.num m (e - fracDs.length), cs4)

mutual

/-- Parse one JSON value (after skipping leading whitespace). -/
def parseValue : Nat → List Char → Option (JsonValue × List Char)
  | 0, _ => none
  | fuel + 1, cs =>
    match skipWs cs with
    | [] => none
    | c :: rest =>
      if c = 'n' then
        match rest with
        | 'u' :: 'l' :: 'l' :: r => some (JsonValue.null, r)
        | _ => none
      else if c = 't' then
        match rest with
        | 'r' :: 'u' :: 'e' :: r => some (JsonValue.bool true, r)
        | _ => none
      else if c = 'f' then
        match rest with
        | 'a' :: 'l' :: 's' :: 'e' :: r => some (JsonValue.bool false, r)
        | _ => none
      else if c = '"' then
        match parseStringRest (rest.length + 1) [] rest with
        | some (s, r) => some (JsonValue.str s, r)
        | none => none
      else if c = '[' then
        match skipWs rest with
        | [] => none
        | c2 :: r2 => if c2 = ']' then some (JsonValue.arr [], r2) else parseElems fuel [] (c2 :: r2)
      else if c = lbrace then
        match skipWs rest with
        | [] => none
        | c2 :: r2 => if c2 = rbrace then some (JsonValue.obj [], r2) else parseMembers fuel [] (c2 :: r2)
      else parseNumber (c :: rest)

/-- Parse the (nonempty) element list of a JSON array, accumulator in reverse. -/
def parseElems : Nat → List JsonValue → List Char → Option (JsonValue × List Char)
  | 0, _, _ => none
  | fuel + 1, acc, cs =>
    match parseValue fuel cs with
    | none => none
    | some (v, rest) =>
      match skipWs rest with
      | [] => none
      | c :: r2 =>
        if c = ',' then parseElems fuel (v :: acc) r2
        else if c = ']' then some (JsonValue.arr (v :: acc).reverse, r2)
        else none

/-- Parse the (nonempty) member list of a JSON object, accumulator in reverse. -/
def parseMembers : Nat → List (String × JsonValue) → List Char → Option (JsonValue × List Char)
  | 0, _, _ => none
  | fuel + 1, acc, cs =>
    match skipWs cs with
    | '"' :: rest =>
      match parseStringRest (rest.length + 1) [] rest with
      | none => none
      | some (k, r1) =>
        match skipWs r1 with
        | ':' :: r2 =>
          match parseValue fuel r2 with
          | none => none
          | some (v, r3) =>
            match skipWs r3 with
            | [] => none
            | c :: r4 =>
              if c = ',' then parseMembers fuel ((k, v) :: acc) r4
              else if c = rbrace then some (JsonValue.obj ((k, v) :: acc).reverse, r4) else none
        | _ => none
    | _ => none

end

/-- `JSON.parse`: parse the whole input as one JSON document (only
whitespace may surround it); `none` models a thrown `SyntaxError`. -/
def jsonParse (s : String) : Option JsonValue :=
  match parseValue (2 * s.length + 2) s.data with
  | some (v, rest) => if (skipWs rest).isEmpty then some v else none
  | none => none

/-! ## The response extractor (`parseJSON` in `services/geminiService.ts`) -/

/-- The substring matched by the regex `/\x7b[\s\S]*\x7d/`: from the first
opening brace through the last closing brace, when the text contains an
opening brace with a closing brace after it. -/
def braceSubstring (text : String) : Option String :=
  let t1 := text.data.dropWhile (fun c => c ≠ lbrace)
  let t2 := (t1.reverse.dropWhile (fun c => c ≠ rbrace)).reverse
  if t2.isEmpty then none else some (String.mk t2)

/-- `parseJSON`: attempt a clean `JSON.parse`; on failure try the
first-brace-to-last-brace substring; on failure the function throws
("Failed to parse JSON response" when no brace match exists, the
re-thrown `JSON.parse` syntax error when the matched substring does not
parse). -/
def parseJSON (text : String) : Except String JsonValue :=
  match jsonParse text with
  | some v => Except.ok v
  | none =>
    match braceSubstring text with
    | some sub =>
      match jsonParse sub with
      | some v => Except.ok v
      | none => Except.error "Unexpected token in JSON"
    | none => Except.error "Failed to parse JSON response"

/-! ## Data model (`types.ts`) -/

/-- `Domain` enum. -/
inductive Domain where
  | Engineering | DigitalArt | Architecture
deriving DecidableEq, Inhabited

/-- `SkillLevel` enum. -/
inductive SkillLevel where
  | Beginner | Novice | Intermediate | Advanced
deriving DecidableEq, Inhabited

/-- `Step.status` values. -/
inductive StepStatus where
  | locked | active | completed | reviewing
deriving DecidableEq, Inhabited

/-- A curriculum step.  The TypeScript interface declares `xpReward:
number`, but the value arrives from backend JSON cast with `as`, so at
runtime the field may be absent; we model it as `Option Int` (`none` =
`undefined`).  JavaScript numbers on the integral values used here are
modelled as `Int`. -/
structure Step where
  id : String
  title : String
  description : String
  criteria : List String
  xpReward : Option Int
  status : StepStatus
deriving DecidableEq, Inhabited

/-- A learning path. -/
structure LearningPath where
  id : String
  title : String
  description : String
  totalXp : Int
  steps : List Step
deriving DecidableEq, Inhabited

/-- The user profile. -/
structure UserProfile where
  name : String
  domain : Domain
  tool : String
  skillLevel : SkillLevel
  xp : Int
  streak : Int
deriving DecidableEq, Inhabited

/-- A daily challenge.  The tier times are minutes as JavaScript numbers,
modelled as exact rationals. -/
structure Challenge where
  id : String
  title : String
  theme : String
  description : String
  referenceImageUrl : Option String
  goldTime : ℚ
  silverTime : ℚ
  bronzeTime : ℚ
deriving DecidableEq, Inhabited

/-! ## `generateLearningPath` post-processing (`geminiService.ts` 86-93)

The remote call and extraction either fail (and the error propagates) or
produce parsed path data; the post-processing then overwrites `id` with
a fresh token (`Date.now().toString()`, modelled as a parameter) and
forces the step statuses. -/

/-- The status-forcing map `steps.map((s, index) => (\x7b...s, status: index
=== 0 ? 'active' : 'locked'\x7d))`, with the running index made explicit. -/
def assignStatuses : Nat → List Step → List Step
  | _, [] => []
  | index, s :: rest =>
    { s with status := if index = 0 then StepStatus.active else StepStatus.locked }
      :: assignStatuses (index + 1) rest

/-- Post-processing of a successfully parsed learning path: assign the
fresh id and force the unlock statuses. -/
def generateLearningPathPost (freshId : String) (pathData : LearningPath) : LearningPath :=
  { pathData with id := freshId, steps := assignStatuses 0 pathData.steps }

/-! ## `handleStepComplete` (`App.tsx` 62-84)

The handler maps over the stored paths; for the path whose id is the
active path id it rewrites the steps and awards XP to the profile.  We
embed the per-path effect. -/

/-- JavaScript truthiness of `xpReward`: `s?.xpReward || 50` yields 50
when the step or the field is absent and also when the reward is `0`. -/
def rewardOrDefault : Option Int → Int
  | some r => if r = 0 then 50 else r
  | none => 50

/-- `updatedSteps[i].status = 'active'` — overwrite the status of the step
at index `i` (in-bounds whenever invoked by `handleStepCompleteSteps`). -/
def setStatusActiveAt (steps : List Step) (i : Nat) : List Step :=
  match steps.get? i with
  | some s => steps.set i { s with status := StepStatus.active }
  | none => steps

/-- The body of the completion map: `step.id === stepId ? (\x7b...step,
status: 'completed'\x7d) : step`. -/
def markStep (stepId : String) (step : Step) : Step :=
  if step.id = stepId then { step with status := StepStatus.completed } else step

/-- `updatedSteps.findIndex(s => s.id === stepId)`: the signed index of
the first match, `-1` when there is none. -/
def completedIdx (us : List Step) (stepId : String) : Int :=
  match us.findIdx? (fun s => s.id = stepId) with
  | some i => (i : Int)
  | none => -1

/-- The step rewrite of `handleStepComplete`: mark every step whose id is
`stepId` completed, then — because `findIndex` yields `-1` when absent
and the guard is the JavaScript comparison `completedIndex <
updatedSteps.length - 1` over signed numbers — set the status of the
step after the first match (or of step 0 when there is no match and the
list is nonempty) to active. -/
def handleStepCompleteSteps (steps : List Step) (stepId : String) : List Step :=
  let us := steps.map (markStep stepId)
  let ci : Int := completedIdx us stepId
  if ci < (us.length : Int) - 1 then setStatusActiveAt us (ci + 1).toNat else us

/-- The XP award: `updatedSteps.find(s => s.id === stepId)?.xpReward || 50`. -/
def xpAward (us : List Step) (stepId : String) : Int :=
  match us.find? (fun s => s.id = stepId) with
  | some s => rewardOrDefault s.xpReward
  | none => 50

/-- The effect of `handleStepComplete(stepId)` on the active path and the
user profile (the stored path whose id equals `activePathId` is replaced
by the first component, and `setUser` applies the second). -/
def completeStep (path : LearningPath) (user : UserProfile) (stepId : String) :
    LearningPath × UserProfile :=
  let us := handleStepCompleteSteps path.steps stepId
  ({ path with steps := us }, { user with xp := user.xp + xpAward us stepId })

/-! ## ChallengeTimerEngine (`components/ActiveChallengeView.tsx` 66-82)

The tier and the next-cutoff display value are recomputed on every
render from `totalSeconds = elapsedSeconds + penaltySeconds`; we embed
the computation as functions of the total (seconds, rational to model
JavaScript numbers exactly). -/

/-- A performance tier. -/
inductive Tier where
  | GOLD | SILVER | BRONZE | FAIL
deriving DecidableEq, Inhabited

/-- The sequential reassignments of `currentTier`: start at GOLD and
overwrite while the elapsed minutes exceed each cutoff. -/
def currentTier (c : Challenge) (totalSeconds : ℚ) : Tier :=
  let currentMinutes := totalSeconds / 60
  let t1 := if currentMinutes > c.goldTime then Tier.SILVER else Tier.GOLD
  let t2 := if currentMinutes > c.silverTime then Tier.BRONZE else t1
  if currentMinutes > c.bronzeTime then Tier.FAIL else t2

/-- The sequential reassignments of `timeToNext` alongside `currentTier`. -/
def timeToNext (c : Challenge) (totalSeconds : ℚ) : ℚ :=
  let currentMinutes := totalSeconds / 60
  let n1 := if currentMinutes > c.goldTime then c.silverTime * 60 - totalSeconds
            else c.goldTime * 60 - totalSeconds
  let n2 := if currentMinutes > c.silverTime then c.bronzeTime * 60 - totalSeconds else n1
  if currentMinutes > c.bronzeTime then 0 else n2

/-- The tier classification as the specification words it: GOLD if `m ≤
goldTime`, SILVER if `goldTime < m ≤ silverTime`, BRONZE if `silverTime
< m ≤ bronzeTime`, FAIL if `m > bronzeTime` (spec wording, for the
refinement comparison with `currentTier`). -/
def specTier (c : Challenge) (totalSeconds : ℚ) : Tier :=
  let m := totalSeconds / 60
  if m ≤ c.goldTime then Tier.GOLD
  else if m ≤ c.silverTime then Tier.SILVER
  else if m ≤ c.bronzeTime then Tier.BRONZE
  else Tier.FAIL

/-- The cutoff (in minutes) belonging to a tier: its own upper time
budget, with FAIL pinned at the bronze budget. -/
def tierCutoff (c : Challenge) : Tier → ℚ
  | Tier.GOLD => c.goldTime
  | Tier.SILVER => c.silverTime
  | Tier.BRONZE => c.bronzeTime
  | Tier.FAIL => c.bronzeTime

/-! ## Hint requests (`components/ActiveChallengeView.tsx` 36-49)

`handleRequestHint` is asynchronous; we embed the effect of one
completed invocation on the component state, with the outcome of the
remote `generateHint` call passed as a parameter (`none` = it threw,
which appends the fixed fallback hint).  The penalty increment happens
before the guarded region, so it is independent of the outcome;
`finally` resets `loadingHint`. -/

/-- The hint-relevant component state of `ActiveChallengeView`. -/
structure ChallengeSession where
  elapsedSeconds : Nat
  penaltySeconds : Nat
  hints : List String
  loadingHint : Bool
deriving DecidableEq, Inhabited

/-- One completed run of `handleRequestHint`: a no-op while a hint is
already loading, otherwise +120 penalty seconds and one appended hint
(the generated one, or the fixed fallback when generation threw). -/
def handleRequestHint (st : ChallengeSession) (hintOutcome : Option String) :
    ChallengeSession :=
  if st.loadingHint then st
  else
    { st with
      penaltySeconds := st.penaltySeconds + 120
      hints := st.hints ++ [match hintOutcome with
        | some h => h
        | none => "Focus on the main silhouette first."]
      loadingHint := false }

/-! ## `generateDailyChallenge` (`geminiService.ts` 160-243) -/

/-- The parsed design-stage JSON, after the caller reads its fields. -/
structure ChallengeDesign where
  title : String
  theme : String
  description : String
  imagePrompt : String
  goldTime : ℚ
  silverTime : ℚ
  bronzeTime : ℚ
deriving DecidableEq, Inhabited

/-- The hardcoded fallback design used when the design stage fails. -/
def fallbackDesign : ChallengeDesign :=
  { title := "Speed Modeling"
    theme := "Abstract"
    description := "Create a simple abstract shape that demonstrates flow."
    imagePrompt := "Abstract 3d shape floating in void, colorful"
    goldTime := 10, silverTime := 20, bronzeTime := 30 }

/-- `encodeURIComponent` keeps ASCII letters, digits and `-_.!~*'()`. -/
def isUnreservedURIChar (c : Char) : Bool :=
  ('A' ≤ c && c ≤ 'Z') || ('a' ≤ c && c ≤ 'z') || ('0' ≤ c && c ≤ '9') ||
  c = '-' || c = '_' || c = '.' || c = '!' || c = '~' || c = '*' ||
  c = Char.ofNat 39 || c = '(' || c = ')'

/-- Uppercase hexadecimal digit of a value below 16. -/
def hexDigitChar (n : Nat) : Char :=
  if n < 10 then Char.ofNat (48 + n) else Char.ofNat (55 + n)

/-- The UTF-8 bytes of a character. -/
def utf8Bytes (c : Char) : List Nat :=
  let n := c.toNat
  if n < 128 then [n]
  else if n < 2048 then [192 + n / 64, 128 + n % 64]
  else if n < 65536 then [224 + n / 4096, 128 + (n / 64) % 64, 128 + n % 64]
  else [240 + n / 262144, 128 + (n / 4096) % 64, 128 + (n / 64) % 64, 128 + n % 64]

/-- Percent-encoding of one byte. -/
def percentEncodeByte (b : Nat) : String :=
  String.mk ['%', hexDigitChar (b / 16), hexDigitChar (b % 16)]

/-- JavaScript `encodeURIComponent`. -/
def encodeURIComponent (s : String) : String :=
  s.data.foldl
    (fun acc c =>
      if isUnreservedURIChar c then acc ++ String.singleton c
      else acc ++ String.join ((utf8Bytes c).map percentEncodeByte))
    ""

/-- The placeholder reference-image URL used when image generation fails. -/
def placeholderUrl (title : String) : String :=
  "https://placehold.co/600x600/20BEFF/ffffff?text=" ++ encodeURIComponent title

/-- The data-URL prefix wrapped around generated image payloads. -/
def dataUrlPrefix : String := "data:image/png;base64,"

/-- The image-extraction loop over `imageResp.candidates?.[0]?.content?.
parts || []`: each part's optional `inlineData.data` payload is modelled
as `Option String`; the first inline payload wins. -/
def extractInlineImage : List (Option String) → Option String
  | [] => none
  | some d :: _ => some (dataUrlPrefix ++ d)
  | none :: rest => extractInlineImage rest

/-- `generateDailyChallenge`, with the remote outcomes passed explicitly:
`designOutcome` is the parsed design-stage JSON (`none` = the call threw
or its text failed to parse), `imageOutcome` is the image-stage response
part list (`none` = the call threw), and `freshId` models
`Date.now().toString()`.  A missing inline image part throws inside the
guarded region, so it also lands on the placeholder. -/
def generateDailyChallenge (freshId : String) (designOutcome : Option ChallengeDesign)
    (imageOutcome : Option (List (Option String))) : Challenge :=
  let design := match designOutcome with
    | some d => d
    | none => fallbackDesign
  let imageUrl := match imageOutcome with
    | none => placeholderUrl design.title
    | some parts =>
      match extractInlineImage parts with
      | some url => url
      | none => placeholderUrl design.title
  { id := freshId
    title := design.title
    theme := design.theme
    description := design.description
    referenceImageUrl := some imageUrl
    goldTime := design.goldTime
    silverTime := design.silverTime
    bronzeTime := design.bronzeTime }

/-! ## `evaluateChallengeSubmission` (`geminiService.ts` 248-291) -/

/-- One content part of a backend request. -/
inductive ReqPart where
  | inlineData (mimeType : String) (data : String)
  | text (s : String)
deriving DecidableEq, Inhabited

/-- `String.startsWith`, over the character list so that it evaluates by
kernel reduction. -/
def strStartsWith (s p : String) : Bool := p.data.isPrefixOf s.data

/-- `referenceImageUrl.includes(',') ? referenceImageUrl.split(',')[1] :
referenceImageUrl`. -/
def refDataOf (referenceImageUrl : String) : String :=
  if referenceImageUrl.contains ',' then (referenceImageUrl.splitOn ",").getD 1 ""
  else referenceImageUrl

/-- The request part list built by `evaluateChallengeSubmission`: the
reference image is attached as inline data only when the URL is a data
URL; the user submission and the closing instruction always follow. -/
def evalSubmissionParts (referenceImageUrl : String) (userMimeType : String)
    (userBase64 : String) : List ReqPart :=
  let isBase64Ref := strStartsWith referenceImageUrl "data:"
  (if isBase64Ref then [ReqPart.inlineData "image/png" (refDataOf referenceImageUrl)] else [])
    ++ [ReqPart.inlineData userMimeType userBase64, ReqPart.text "Judge the submission."]

/-- The literal `"\x7b\x7d"` substituted for an absent or empty
`response.text`. -/
def emptyObjText : String := String.mk [lbrace, rbrace]

/-- The optimistic fallback result of `evaluateChallengeSubmission`. -/
def evalFallback : JsonValue :=
  JsonValue.obj
    [("passed", JsonValue.bool true), ("score", JsonValue.num 85 0),
     ("feedback", JsonValue.str "Good effort! (Auto-passed due to network)")]

/-- `evaluateChallengeSubmission`, with the backend outcome passed
explicitly: `callOutcome` is the response text (`none` = the call threw,
`some ""` = the response carried no text, handled by the `|| "\x7b\x7d"`
default).  Both a thrown call and a `parseJSON` failure land in the
`catch`, which returns the optimistic default. -/
def evaluateChallengeSubmission (referenceImageUrl : String) (userMimeType : String)
    (userBase64 : String) (callOutcome : Option String) : JsonValue :=
  match callOutcome with
  | none => evalFallback
  | some text =>
    match parseJSON (if text = "" then emptyObjText else text) with
    | Except.ok v => v
    | Except.error _ => evalFallback

/-! ## `reviewSubmission` (`geminiService.ts` 104-154) -/

/-- The safe default returned when the review call or its parsing fails. -/
def reviewDefault : JsonValue :=
  JsonValue.obj
    [("passed", JsonValue.bool false),
     ("feedback", JsonValue.str "AI Review service unavailable. Please try again.")]

/-- `reviewSubmission`, with the remote outcomes passed explicitly:
`fileOutcome` is the base64 conversion of the uploaded file (`none` =
the `FileReader` rejected — this `await` sits before the `try` block, so
the rejection propagates to the caller as `Except.error`), and
`callOutcome` is the backend response text (`none` = the call threw).
Inside the guarded region, a thrown call or a `parseJSON` failure
returns the safe default. -/
def reviewSubmission (fileOutcome : Option String) (callOutcome : Option String) :
    Except Unit JsonValue :=
  match fileOutcome with
  | none => Except.error ()
  | some _ =>
    match callOutcome with
    | none => Except.ok reviewDefault
    | some text =>
      match parseJSON (if text = "" then emptyObjText else text) with
      | Except.ok v => Except.ok v
      | Except.error _ => Except.ok reviewDefault

/-! ## Concrete data used by the witness and counterexample theorems -/

/-- A backend-shaped step carrying a junk status (`completed`). -/
def c1Step1 : Step :=
  { id := "s1", title := "Primitives", description := "Block out the shape"
    criteria := ["uses primitives"], xpReward := some 100, status := StepStatus.completed }

/-- A backend-shaped step carrying a junk status (`active`) and no reward. -/
def c1Step2 : Step :=
  { id := "s2", title := "Detailing", description := "Add details"
    criteria := [], xpReward := none, status := StepStatus.active }

/-- A parsed learning path as the backend might deliver it. -/
def c1ExamplePath : LearningPath :=
  { id := "raw", title := "Sculpting 101", description := "Basics", totalXp := 500
    steps := [c1Step1, c1Step2] }

/-- An active step whose reward is present and equal to zero. -/
def c2CexStep : Step :=
  { id := "s1", title := "Only step", description := ""
    criteria := [], xpReward := some 0, status := StepStatus.active }

/-- A one-step path whose active step has `xpReward = 0`. -/
def c2CexPath : LearningPath :=
  { id := "p1", title := "P", description := "", totalXp := 0, steps := [c2CexStep] }

/-- A user profile with zero XP. -/
def c2CexUser : UserProfile :=
  { name := "u", domain := Domain.Engineering, tool := "Blender"
    skillLevel := SkillLevel.Beginner, xp := 0, streak := 1 }

/-- An active first step with a positive reward. -/
def c2WitStep1 : Step :=
  { id := "a", title := "First", description := ""
    criteria := [], xpReward := some 70, status := StepStatus.active }

/-- A locked second step. -/
def c2WitStep2 : Step :=
  { id := "b", title := "Second", description := ""
    criteria := [], xpReward := some 30, status := StepStatus.locked }

/-- A two-step path with the first step active. -/
def c2WitPath : LearningPath :=
  { id := "p2", title := "W", description := "", totalXp := 100
    steps := [c2WitStep1, c2WitStep2] }

/-- A successfully parsed challenge design. -/
def c4Design : ChallengeDesign :=
  { title := "Crystal Lantern", theme := "Fantasy", description := "Model a lantern"
    imagePrompt := "a crystal lantern", goldTime := 15, silverTime := 25, bronzeTime := 40 }

/-- The challenge of the specification example: 10/20/30-minute budgets. -/
def c5Example : Challenge :=
  { id := "c", title := "T", theme := "Th", description := "d"
    referenceImageUrl := some "u", goldTime := 10, silverTime := 20, bronzeTime := 30 }

/-- A challenge session that is not currently loading a hint. -/
def c6Session : ChallengeSession :=
  { elapsedSeconds := 30, penaltySeconds := 0, hints := [], loadingHint := false }

/-- A placeholder (non-data-URL) reference image URL. -/
def c7PlaceholderRef : String :=
  "https://placehold.co/600x600/20BEFF/ffffff?text=Speed%20Modeling"

/-- A data-URL reference image. -/
def c7DataRef : String := "data:image/png;base64,QUJD"

/-! ## Helper lemmas -/

lemma assignStatuses_getElem? (n i : Nat) (l : List Step) :
    (assignStatuses n l)[i]? =
      (l[i]?).map (fun s =>
        { s with status := if n + i = 0 then StepStatus.active else StepStatus.locked }) := by
  induction l generalizing n i with
  | nil => simp [assignStatuses]
  | cons s rest ih =>
    cases i with
    | zero => simp [assignStatuses]
    | succ j =>
      have h := ih (n + 1) j
      simp only [assignStatuses, List.getElem?_cons_succ, Nat.add_eq_zero, and_false,
        false_and, if_false] at h ⊢
      simpa using h

lemma extractInlineImage_eq_some {parts : List (Option String)} {u : String}
    (h : extractInlineImage parts = some u) : ∃ d, u = dataUrlPrefix ++ d := by
  induction parts with
  | nil => simp [extractInlineImage] at h
  | cons p rest ih =>
    cases p with
    | some d => exact ⟨d, by simpa [extractInlineImage] using h.symm⟩
    | none => exact ih (by simpa [extractInlineImage] using h)

lemma string_append_ne_empty {a : String} (b : String) (h : a.length ≠ 0) : a ++ b ≠ "" := by
  intro hc
  have := congrArg String.length hc
  rw [String.length_append] at this
  simp at this
  omega


/-! ## Claim theorems -/

/-- C1: every learning path returned by `generateLearningPath` carries the
freshly assigned path id, and — whatever step statuses the backend text
contained — its step at index 0 has status `active` and every step at a
positive index has status `locked`. -/
theorem c1_generateLearningPath_statuses (freshId : String) (pathData : LearningPath) :
    (generateLearningPathPost freshId pathData).id = freshId ∧
    ∀ i s, (generateLearningPathPost freshId pathData).steps[i]? = some s →
      s.status = if i = 0 then StepStatus.active else StepStatus.locked := by
  refine ⟨rfl, ?_⟩
  intro i s h
  have hg : (generateLearningPathPost freshId pathData).steps = assignStatuses 0 pathData.steps :=
    rfl
  rw [hg, assignStatuses_getElem?] at h
  rcases Option.map_eq_some'.mp h with ⟨t, _, ht⟩
  rw [← ht]
  simp

/-- C1 witness: on a two-step backend path with junk statuses, the
post-processed path has the fresh id, an active first step and a locked
second step. -/
theorem c1_witness :
    (generateLearningPathPost "1730000000000" c1ExamplePath).id = "1730000000000" ∧
    (generateLearningPathPost "1730000000000" c1ExamplePath).steps[0]? =
      some { c1Step1 with status := StepStatus.active } ∧
    (generateLearningPathPost "1730000000000" c1ExamplePath).steps[1]? =
      some { c1Step2 with status := StepStatus.locked } ∧
    { c1Step1 with status := StepStatus.active }.status =
      (if 0 = 0 then StepStatus.active else StepStatus.locked) ∧
    { c1Step2 with status := StepStatus.locked }.status =
      (if 1 = 0 then StepStatus.active else StepStatus.locked) := by
  have h := c1_generateLearningPath_statuses "1730000000000" c1ExamplePath
  exact ⟨h.1, rfl, rfl, h.2 0 _ rfl, h.2 1 _ rfl⟩

/-- C3: the response extractor first attempts a direct parse; on failure
it attempts the substring from the first opening brace through the last
closing brace; if that also fails it reports an error (never guessing
values).  The input `"Sure! ..."` wrapped in a code fence yields the
object, and `"no json here"` yields the error. -/
theorem c3_parseJSON_two_tier :
    (∀ text v, jsonParse text = some v → parseJSON text = Except.ok v) ∧
    (∀ text sub v, jsonParse text = none → braceSubstring text = some sub →
      jsonParse sub = some v → parseJSON text = Except.ok v) ∧
    (∀ text, jsonParse text = none →
      (∀ sub, braceSubstring text = some sub → jsonParse sub = none) →
      ∃ msg, parseJSON text = Except.error msg) ∧
    parseJSON "Sure! ```json\n\x7b\"a\":1\x7d\n```" =
      Except.ok (JsonValue.obj [("a", JsonValue.num 1 0)]) ∧
    parseJSON "no json here" = Except.error "Failed to parse JSON response" := by
  refine ⟨?_, ?_, ?_, rfl, rfl⟩
  · intro text v h
    simp [parseJSON, h]
  · intro text sub v h1 h2 h3
    simp [parseJSON, h1, h2, h3]
  · intro text h1 h2
    unfold parseJSON
    rw [h1]
    cases hb : braceSubstring text with
    | none => exact ⟨_, rfl⟩
    | some sub => exact ⟨"Unexpected token in JSON", by simp [h2 sub hb]⟩

/-- C3 witness: direct parse of a prose-wrapped object fails, yet the
brace substring parses, so the extractor succeeds on that substring. -/
theorem c3_witness :
    jsonParse "ok: \x7b\"k\":true\x7d" = none ∧
    braceSubstring "ok: \x7b\"k\":true\x7d" = some "\x7b\"k\":true\x7d" ∧
    jsonParse "\x7b\"k\":true\x7d" = some (JsonValue.obj [("k", JsonValue.bool true)]) ∧
    parseJSON "ok: \x7b\"k\":true\x7d" =
      Except.ok (JsonValue.obj [("k", JsonValue.bool true)]) :=
  ⟨rfl, rfl, rfl,
    c3_parseJSON_two_tier.2.1 "ok: \x7b\"k\":true\x7d" "\x7b\"k\":true\x7d" _ rfl rfl rfl⟩

/-- C4: `generateDailyChallenge` always returns a challenge; when the
design stage fails the returned challenge carries exactly the documented
fallback design (title "Speed Modeling", theme "Abstract", gold/silver/
bronze budgets 10/20/30), and when the image sub-stage fails (thrown
call, or no inline image part in the response) the reference image URL
is the text-labelled placeholder instead of a failure. -/
theorem c4_daily_challenge_fallbacks :
    (∀ freshId imageOutcome,
      (generateDailyChallenge freshId none imageOutcome).title = "Speed Modeling" ∧
      (generateDailyChallenge freshId none imageOutcome).theme = "Abstract" ∧
      (generateDailyChallenge freshId none imageOutcome).description =
        fallbackDesign.description ∧
      (generateDailyChallenge freshId none imageOutcome).goldTime = 10 ∧
      (generateDailyChallenge freshId none imageOutcome).silverTime = 20 ∧
      (generateDailyChallenge freshId none imageOutcome).bronzeTime = 30) ∧
    (∀ freshId designOutcome,
      (generateDailyChallenge freshId designOutcome none).referenceImageUrl =
        some (placeholderUrl (designOutcome.getD fallbackDesign).title)) ∧
    (∀ freshId designOutcome parts, extractInlineImage parts = none →
      (generateDailyChallenge freshId designOutcome (some parts)).referenceImageUrl =
        some (placeholderUrl (designOutcome.getD fallbackDesign).title)) := by
  refine ⟨?_, ?_, ?_⟩
  · intro freshId imageOutcome
    exact ⟨rfl, rfl, rfl, rfl, rfl, rfl⟩
  · intro freshId designOutcome
    cases designOutcome <;> rfl
  · intro freshId designOutcome parts h
    cases designOutcome <;> simp [generateDailyChallenge, h]

/-- C4 witness: with a successful design and an image response whose only
part carries no inline data, the challenge falls back to the placeholder
labelled with the design title. -/
theorem c4_witness :
    extractInlineImage [none] = none ∧
    (generateDailyChallenge "w4" (some c4Design) (some [none])).referenceImageUrl =
      some (placeholderUrl c4Design.title) := by
  refine ⟨rfl, ?_⟩
  have h := c4_daily_challenge_fallbacks.2.2 "w4" (some c4Design) [none] rfl
  simpa using h

/-- C10: every challenge returned by `generateDailyChallenge` has a
defined, non-empty reference image URL — either a
`data:image/png;base64,` payload or the placeholder https URL — even
though the `Challenge` type declares the field optional. -/
theorem c10_reference_image_present (freshId : String) (designOutcome : Option ChallengeDesign)
    (imageOutcome : Option (List (Option String))) :
    ∃ s, (generateDailyChallenge freshId designOutcome imageOutcome).referenceImageUrl = some s ∧
      s ≠ "" ∧
      ((∃ d, s = dataUrlPrefix ++ d) ∨
        ∃ t, s = "https://placehold.co/600x600/20BEFF/ffffff?text=" ++ t) := by
  have hph : ∀ title : String, placeholderUrl title ≠ "" ∧
      ∃ t, placeholderUrl title = "https://placehold.co/600x600/20BEFF/ffffff?text=" ++ t := by
    intro title
    exact ⟨string_append_ne_empty _ (by decide), ⟨encodeURIComponent title, rfl⟩⟩
  cases imageOutcome with
  | none =>
    cases designOutcome <;> exact ⟨_, rfl, (hph _).1, Or.inr (hph _).2⟩
  | some parts =>
    cases hext : extractInlineImage parts with
    | none =>
      cases designOutcome with
      | none =>
        exact ⟨placeholderUrl fallbackDesign.title,
          by simp [generateDailyChallenge, hext], (hph _).1, Or.inr (hph _).2⟩
      | some d =>
        exact ⟨placeholderUrl d.title,
          by simp [generateDailyChallenge, hext], (hph _).1, Or.inr (hph _).2⟩
    | some u =>
      rcases extractInlineImage_eq_some hext with ⟨d, hd⟩
      refine ⟨u, by simp [generateDailyChallenge, hext], ?_, Or.inl ⟨d, hd⟩⟩
      rw [hd]
      exact string_append_ne_empty _ (by decide)

/-- C5: for budgets with gold ≤ silver ≤ bronze, the displayed tier
matches the specification classification (GOLD for m ≤ gold, SILVER for
gold < m ≤ silver, BRONZE for silver < m ≤ bronze, FAIL beyond), and the
time to the next tier is the current tier's cutoff in seconds minus the
total, clamped at zero and never negative; at 10/20/30 budgets and a
900-second total the tier is SILVER with 300 seconds to the cutoff. -/
theorem c5_tier_classification :
    (∀ (c : Challenge) (t : ℚ), c.goldTime ≤ c.silverTime → c.silverTime ≤ c.bronzeTime →
      currentTier c t = specTier c t ∧
      timeToNext c t = max 0 (tierCutoff c (currentTier c t) * 60 - t) ∧
      0 ≤ timeToNext c t) ∧
    currentTier c5Example 900 = Tier.SILVER ∧
    timeToNext c5Example 900 = 300 := by
  refine ⟨?_, ?_, ?_⟩
  · intro c t hgs hsb
    have h60 : (0 : ℚ) < 60 := by norm_num
    by_cases hb : t / 60 > c.bronzeTime
    · have hs2 : t / 60 > c.silverTime := lt_of_le_of_lt hsb hb
      have hg : t / 60 > c.goldTime := lt_of_le_of_lt hgs hs2
      have htb : c.bronzeTime * 60 - t < 0 := by
        have := (lt_div_iff h60).mp hb
        linarith
      refine ⟨?_, ?_, ?_⟩
      · simp [currentTier, specTier, hb, hs2, hg, not_le.mpr hg, not_le.mpr hs2, not_le.mpr hb]
      · simp only [currentTier, timeToNext, tierCutoff, if_pos hb, if_pos hs2]
        rw [max_eq_left (le_of_lt htb)]
      · simp [timeToNext, hb]
    · by_cases hs2 : t / 60 > c.silverTime
      · have hg : t / 60 > c.goldTime := lt_of_le_of_lt hgs hs2
        have htb : 0 ≤ c.bronzeTime * 60 - t := by
          have := (div_le_iff h60).mp (not_lt.mp hb)
          linarith
        refine ⟨?_, ?_, ?_⟩
        · simp [currentTier, specTier, hb, hs2, hg, not_le.mpr hg, not_le.mpr hs2, not_lt.mp hb]
        · simp only [currentTier, timeToNext, tierCutoff, if_neg hb, if_pos hs2]
          rw [max_eq_right htb]
        · simp only [timeToNext, if_neg hb, if_pos hs2]
          exact htb
      · by_cases hg : t / 60 > c.goldTime
        · have hts : 0 ≤ c.silverTime * 60 - t := by
            have := (div_le_iff h60).mp (not_lt.mp hs2)
            linarith
          refine ⟨?_, ?_, ?_⟩
          · simp [currentTier, specTier, hb, hs2, hg, not_le.mpr hg, not_lt.mp hs2]
          · simp only [currentTier, timeToNext, tierCutoff, if_neg hb, if_neg hs2, if_pos hg]
            rw [max_eq_right hts]
          · simp only [timeToNext, if_neg hb, if_neg hs2, if_pos hg]
            exact hts
        · have htg : 0 ≤ c.goldTime * 60 - t := by
            have := (div_le_iff h60).mp (not_lt.mp hg)
            linarith
          refine ⟨?_, ?_, ?_⟩
          · simp [currentTier, specTier, hb, hs2, hg, not_lt.mp hg]
          · simp only [currentTier, timeToNext, tierCutoff, if_neg hb, if_neg hs2, if_neg hg]
            rw [max_eq_right htg]
          · simp only [timeToNext, if_neg hb, if_neg hs2, if_neg hg]
            exact htg
  · norm_num [currentTier, c5Example]
  · norm_num [timeToNext, c5Example]

/-- C5 witness: the general classification applied to the 10/20/30
challenge at a 900-second total. -/
theorem c5_witness :
    c5Example.goldTime ≤ c5Example.silverTime ∧
    c5Example.silverTime ≤ c5Example.bronzeTime ∧
    currentTier c5Example 900 = specTier c5Example 900 := by
  have h := (c5_tier_classification.1 c5Example 900 (by norm_num [c5Example])
    (by norm_num [c5Example])).1
  exact ⟨by norm_num [c5Example], by norm_num [c5Example], h⟩

/-- C6: each completed hint request from a non-loading state adds exactly
120 penalty seconds — independently of whether hint generation succeeded
— leaves the session ready for further requests, and two consecutive
requests add exactly 240 seconds. -/
theorem c6_hint_penalty :
    (∀ (st : ChallengeSession) (o : Option String), st.loadingHint = false →
      (handleRequestHint st o).penaltySeconds = st.penaltySeconds + 120 ∧
      (handleRequestHint st o).loadingHint = false ∧
      (handleRequestHint st o).elapsedSeconds = st.elapsedSeconds) ∧
    (∀ (st : ChallengeSession) (o1 o2 : Option String), st.loadingHint = false →
      (handleRequestHint (handleRequestHint st o1) o2).penaltySeconds =
        st.penaltySeconds + 240) := by
  constructor
  · intro st o h
    refine ⟨?_, ?_, ?_⟩ <;> simp [handleRequestHint, h]
  · intro st o1 o2 h
    simp [handleRequestHint, h]

/-- C6 witness: two hint requests on a fresh session, one succeeding and
one failing, accrue exactly 240 penalty seconds. -/
theorem c6_witness :
    c6Session.loadingHint = false ∧
    (handleRequestHint (handleRequestHint c6Session (some "Use mirror modifier")) none
      ).penaltySeconds = c6Session.penaltySeconds + 240 :=
  ⟨rfl, c6_hint_penalty.2 c6Session (some "Use mirror modifier") none rfl⟩

/-- C7: when the reference image string is not a data URL the request
parts contain no inline reference-image part while the user-submission
part is still included, and when it is a data URL the inline reference
part is included before the user part. -/
theorem c7_eval_reference_part (referenceImageUrl userMimeType userBase64 : String) :
    (strStartsWith referenceImageUrl "data:" = false →
      evalSubmissionParts referenceImageUrl userMimeType userBase64 =
        [ReqPart.inlineData userMimeType userBase64, ReqPart.text "Judge the submission."]) ∧
    (strStartsWith referenceImageUrl "data:" = true →
      evalSubmissionParts referenceImageUrl userMimeType userBase64 =
        [ReqPart.inlineData "image/png" (refDataOf referenceImageUrl),
         ReqPart.inlineData userMimeType userBase64, ReqPart.text "Judge the submission."]) := by
  constructor
  · intro h
    simp [evalSubmissionParts, h]
  · intro h
    simp [evalSubmissionParts, h]

/-- C7 witness: a placeholder URL produces the two-part request with no
inline reference part; a data URL produces the three-part request. -/
theorem c7_witness :
    strStartsWith c7PlaceholderRef "data:" = false ∧
    evalSubmissionParts c7PlaceholderRef "image/jpeg" "Zm9v" =
      [ReqPart.inlineData "image/jpeg" "Zm9v", ReqPart.text "Judge the submission."] ∧
    strStartsWith c7DataRef "data:" = true ∧
    evalSubmissionParts c7DataRef "image/jpeg" "Zm9v" =
      [ReqPart.inlineData "image/png" (refDataOf c7DataRef),
       ReqPart.inlineData "image/jpeg" "Zm9v", ReqPart.text "Judge the submission."] :=
  ⟨rfl, (c7_eval_reference_part c7PlaceholderRef "image/jpeg" "Zm9v").1 rfl, rfl,
    (c7_eval_reference_part c7DataRef "image/jpeg" "Zm9v").2 rfl⟩

/-- C8: when the backend call of `evaluateChallengeSubmission` fails, the
error is not propagated; the operation returns the optimistic default
with `passed = true` and `score = 85`. -/
theorem c8_eval_optimistic_default (referenceImageUrl userMimeType userBase64 : String) :
    evaluateChallengeSubmission referenceImageUrl userMimeType userBase64 none = evalFallback ∧
    evalFallback = JsonValue.obj
      [("passed", JsonValue.bool true), ("score", JsonValue.num 85 0),
       ("feedback", JsonValue.str "Good effort! (Auto-passed due to network)")] :=
  ⟨rfl, rfl⟩

/-- C9 counterexample: when the base64 conversion of the uploaded file
fails, `reviewSubmission` propagates the rejection (the conversion is
awaited before the `try` block) instead of returning the safe default —
even though the backend response itself would have parsed fine. -/
theorem c9_counterexample :
    reviewSubmission none (some "\x7b\"passed\":true,\"feedback\":\"nice\"\x7d") =
      Except.error () ∧
    reviewSubmission none (some "\x7b\"passed\":true,\"feedback\":\"nice\"\x7d") ≠
      Except.ok reviewDefault := by
  refine ⟨rfl, ?_⟩
  intro h
  exact Except.noConfusion h

/-- C9 (amended): once the uploaded file has been converted, a failure of
the backend call or of response parsing makes `reviewSubmission` return
the safe default (`passed = false`, service-unavailable feedback) and it
never propagates an error; a failure of the file-to-base64 conversion
itself, which happens before the guarded region, still propagates. -/
theorem c9_review_safe_default :
    (∀ b, reviewSubmission (some b) none = Except.ok reviewDefault) ∧
    (∀ b text msg, parseJSON (if text = "" then emptyObjText else text) = Except.error msg →
      reviewSubmission (some b) (some text) = Except.ok reviewDefault) ∧
    (∀ b callOutcome, reviewSubmission (some b) callOutcome ≠ Except.error ()) ∧
    reviewDefault = JsonValue.obj
      [("passed", JsonValue.bool false),
       ("feedback", JsonValue.str "AI Review service unavailable. Please try again.")] := by
  refine ⟨fun b => rfl, ?_, ?_, rfl⟩
  · intro b text msg h
    simp [reviewSubmission, h]
  · intro b callOutcome
    cases callOutcome with
    | none => intro h; exact Except.noConfusion h
    | some text =>
      cases hp : parseJSON (if text = "" then emptyObjText else text) with
      | ok v => simp [reviewSubmission, hp]
      | error msg => simp [reviewSubmission, hp]

/-- C9 witness: an unparseable backend response yields the safe default. -/
theorem c9_witness :
    parseJSON (if "oops" = "" then emptyObjText else "oops") =
      Except.error "Failed to parse JSON response" ∧
    reviewSubmission (some "Zm9v") (some "oops") = Except.ok reviewDefault :=
  ⟨rfl, c9_review_safe_default.2.1 "Zm9v" "oops" "Failed to parse JSON response" rfl⟩

lemma findIdx?_from_first {α : Type} (p : α → Bool) :
    ∀ (l : List α) (i : Nat) (a : α) (start : Nat), l[i]? = some a → p a = true →
      (∀ j b, j < i → l[j]? = some b → p b = false) →
      List.findIdx? p l start = some (start + i) := by
  intro l
  induction l with
  | nil => intro i a start h; simp at h
  | cons x xs ih =>
    intro i a start h hp hfirst
    cases i with
    | zero =>
      simp only [List.getElem?_cons_zero, Option.some.injEq] at h
      subst h
      simp [List.findIdx?_cons, hp]
    | succ j =>
      have hx : p x = false := hfirst 0 x (Nat.succ_pos j) (by simp)
      have h' : xs[j]? = some a := by simpa using h
      have hfirst' : ∀ k b, k < j → xs[k]? = some b → p b = false := by
        intro k b hk hkb
        exact hfirst (k + 1) b (by omega) (by simpa using hkb)
      have hrec := ih j a (start + 1) h' hp hfirst'
      have harith : start + 1 + j = start + (j + 1) := by omega
      rw [harith] at hrec
      rw [List.findIdx?_cons, hx]
      simpa using hrec

lemma find?_from_first {α : Type} (p : α → Bool) :
    ∀ (l : List α) (i : Nat) (a : α), l[i]? = some a → p a = true →
      (∀ j b, j < i → l[j]? = some b → p b = false) →
      l.find? p = some a := by
  intro l
  induction l with
  | nil => intro i a h; simp at h
  | cons x xs ih =>
    intro i a h hp hfirst
    cases i with
    | zero =>
      simp only [List.getElem?_cons_zero, Option.some.injEq] at h
      subst h
      exact List.find?_cons_of_pos xs hp
    | succ j =>
      have hx : p x = false := hfirst 0 x (Nat.succ_pos j) (by simp)
      rw [List.find?_cons_of_neg xs (by simp [hx])]
      exact ih j a (by simpa using h) hp fun k b hk hkb =>
        hfirst (k + 1) b (by omega) (by simpa using hkb)

lemma markStep_of_eq {stepId : String} {t : Step} (h : t.id = stepId) :
    markStep stepId t = { t with status := StepStatus.completed } := by
  simp [markStep, h]

lemma markStep_of_ne {stepId : String} {t : Step} (h : t.id ≠ stepId) :
    markStep stepId t = t := by
  simp [markStep, h]

lemma nodup_id_ne {steps : List Step} (hnodup : (steps.map Step.id).Nodup)
    {i j : Nat} {s t : Step} (hi : steps[i]? = some s) (hj : steps[j]? = some t)
    (hne : i ≠ j) : s.id ≠ t.id := by
  intro heq
  rcases List.getElem?_eq_some.mp hi with ⟨hilen, hieq⟩
  rcases List.getElem?_eq_some.mp hj with ⟨hjlen, hjeq⟩
  have hilen2 : i < (steps.map Step.id).length := by simpa using hilen
  have hjlen2 : j < (steps.map Step.id).length := by simpa using hjlen
  have hmi : (steps.map Step.id)[i] = s.id := by
    rw [List.getElem_map]
    exact congrArg Step.id hieq
  have hmj : (steps.map Step.id)[j] = t.id := by
    rw [List.getElem_map]
    exact congrArg Step.id hjeq
  have : i = j := by
    refine (@List.Nodup.getElem_inj_iff String (steps.map Step.id) hnodup i hilen2 j hjlen2).mp ?_
    rw [hmi, hmj, heq]
  exact hne this

/-- C2 counterexample: on a path whose active step has a present reward
of exactly 0, `completeStep` raises the profile's xp by 50, not by the
step's `xpReward` (JavaScript `|| 50` treats the present value `0` as
absent), so the claim as stated fails. -/
theorem c2_counterexample :
    c2CexStep.status = StepStatus.active ∧
    c2CexStep.id = "s1" ∧
    c2CexStep.xpReward = some 0 ∧
    (completeStep c2CexPath c2CexUser "s1").2.xp = c2CexUser.xp + 50 ∧
    c2CexUser.xp + 50 ≠ c2CexUser.xp + 0 := by
  refine ⟨rfl, rfl, rfl, by decide, by decide⟩

/-- C2 (amended): for a path with unique step ids, completing the active
step marks exactly that step completed, makes the immediately following
step (when one exists) active, leaves every other step unchanged, and
raises the profile's xp by exactly the step's `xpReward` as JavaScript
truthiness reads it — the literal reward when it is present and nonzero,
and 50 when it is absent or zero (`rewardOrDefault`). -/
theorem c2_completeStep_spec (path : LearningPath) (user : UserProfile) (stepId : String)
    (i : Nat) (s : Step)
    (hs : path.steps[i]? = some s)
    (hid : s.id = stepId)
    (hact : s.status = StepStatus.active)
    (hnodup : (path.steps.map Step.id).Nodup) :
    (completeStep path user stepId).1.steps[i]? =
      some { s with status := StepStatus.completed } ∧
    (∀ t, path.steps[i + 1]? = some t →
      (completeStep path user stepId).1.steps[i + 1]? =
        some { t with status := StepStatus.active }) ∧
    (∀ j, j ≠ i → j ≠ i + 1 →
      (completeStep path user stepId).1.steps[j]? = path.steps[j]?) ∧
    (completeStep path user stepId).2.xp = user.xp + rewardOrDefault s.xpReward := by
  obtain ⟨hilen, -⟩ := List.getElem?_eq_some.mp hs
  set us : List Step := path.steps.map (markStep stepId) with hus
  have hus_get : ∀ j : Nat, us[j]? = (path.steps[j]?).map (markStep stepId) := by
    intro j
    rw [hus]
    exact List.getElem?_map _ _ _
  have hus_i : us[i]? = some { s with status := StepStatus.completed } := by
    rw [hus_get i, hs]
    simp [markStep_of_eq hid]
  have hid_ne : ∀ j t, j ≠ i → path.steps[j]? = some t → t.id ≠ stepId := by
    intro j t hji hjt hteq
    exact nodup_id_ne hnodup hjt hs hji (hteq.trans hid.symm)
  have hus_ne : ∀ j, j ≠ i → us[j]? = path.steps[j]? := by
    intro j hji
    rw [hus_get j]
    cases hjt : path.steps[j]? with
    | none => rfl
    | some t => simp [markStep_of_ne (hid_ne j t hji hjt)]
  have hus_len : us.length = path.steps.length := by
    rw [hus]
    exact List.length_map _ _
  have hp_i : (decide (({ s with status := StepStatus.completed } : Step).id = stepId)) = true := by
    simp [hid]
  have hp_lt : ∀ j b, j < i → us[j]? = some b → decide (b.id = stepId) = false := by
    intro j b hj hjb
    have hji : j ≠ i := by omega
    rw [hus_ne j hji] at hjb
    simp [hid_ne j b hji hjb]
  have hfind : List.findIdx? (fun st => decide (st.id = stepId)) us = some i := by
    have h := findIdx?_from_first (fun st => decide (st.id = stepId)) us i
      { s with status := StepStatus.completed } 0 hus_i hp_i hp_lt
    simpa using h
  have hci : completedIdx us stepId = (i : Int) := by
    unfold completedIdx
    rw [hfind]
  have hresult : (completeStep path user stepId).1.steps =
      handleStepCompleteSteps path.steps stepId := rfl
  have hxp : (completeStep path user stepId).2.xp =
      user.xp + xpAward (handleStepCompleteSteps path.steps stepId) stepId := rfl
  have hmain : handleStepCompleteSteps path.steps stepId =
      if (i : Int) < (path.steps.length : Int) - 1
      then setStatusActiveAt us ((i : Int) + 1).toNat else us := by
    simp only [handleStepCompleteSteps]
    rw [← hus, hci, hus_len]
  by_cases hcase : i + 1 < path.steps.length
  · have hguard : (i : Int) < (path.steps.length : Int) - 1 := by omega
    have htoNat : ((i : Int) + 1).toNat = i + 1 := by omega
    obtain ⟨t, ht⟩ : ∃ t, path.steps[i + 1]? = some t :=
      ⟨_, List.getElem?_eq_getElem hcase⟩
    have hus_i1 : us[i + 1]? = some t := by
      rw [hus_ne (i + 1) (by omega)]
      exact ht
    have hset : setStatusActiveAt us (i + 1) =
        us.set (i + 1) { t with status := StepStatus.active } := by
      unfold setStatusActiveAt
      rw [List.get?_eq_getElem?, hus_i1]
    have hres : handleStepCompleteSteps path.steps stepId =
        us.set (i + 1) { t with status := StepStatus.active } := by
      rw [hmain, if_pos hguard, htoNat, hset]
    refine ⟨?_, ?_, ?_, ?_⟩
    · rw [hresult, hres, List.getElem?_set_ne (by omega : i + 1 ≠ i)]
      exact hus_i
    · intro t' ht'
      obtain rfl : t = t' := by
        have h2 := ht.symm.trans ht'
        exact Option.some.inj h2
      rw [hresult, hres, List.getElem?_set_self (by rw [hus_len]; omega)]
    · intro j hji hji1
      rw [hresult, hres, List.getElem?_set_ne (by omega : i + 1 ≠ j)]
      exact hus_ne j hji
    · rw [hxp, hres]
      have hfi : (us.set (i + 1) { t with status := StepStatus.active })[i]? =
          some { s with status := StepStatus.completed } := by
        rw [List.getElem?_set_ne (by omega : i + 1 ≠ i)]
        exact hus_i
      have hfind2 : (us.set (i + 1) { t with status := StepStatus.active }).find?
          (fun st => decide (st.id = stepId)) =
          some { s with status := StepStatus.completed } := by
        refine find?_from_first _ _ i _ hfi hp_i ?_
        intro j b hj hjb
        rw [List.getElem?_set_ne (by omega : i + 1 ≠ j)] at hjb
        exact hp_lt j b hj hjb
      unfold xpAward
      rw [hfind2]
  · have hguard : ¬ ((i : Int) < (path.steps.length : Int) - 1) := by omega
    have hres : handleStepCompleteSteps path.steps stepId = us := by
      rw [hmain, if_neg hguard]
    refine ⟨?_, ?_, ?_, ?_⟩
    · rw [hresult, hres]
      exact hus_i
    · intro t' ht'
      exfalso
      have hnone : path.steps[i + 1]? = none := List.getElem?_eq_none (by omega)
      rw [hnone] at ht'
      exact Option.noConfusion ht'
    · intro j hji _
      rw [hresult, hres]
      exact hus_ne j hji
    · rw [hxp, hres]
      have hfind2 : us.find? (fun st => decide (st.id = stepId)) =
          some { s with status := StepStatus.completed } :=
        find?_from_first _ _ i _ hus_i hp_i hp_lt
      unfold xpAward
      rw [hfind2]

/-- C2 witness: completing the active first step of a two-step path marks
it completed, activates the second step and awards its 70-point reward. -/
theorem c2_witness :
    c2WitPath.steps[0]? = some c2WitStep1 ∧
    (completeStep c2WitPath c2CexUser "a").1.steps[0]? =
      some { c2WitStep1 with status := StepStatus.completed } ∧
    (completeStep c2WitPath c2CexUser "a").1.steps[1]? =
      some { c2WitStep2 with status := StepStatus.active } ∧
    (completeStep c2WitPath c2CexUser "a").2.xp =
      c2CexUser.xp + rewardOrDefault c2WitStep1.xpReward := by
  have h := c2_completeStep_spec c2WitPath c2CexUser "a" 0 c2WitStep1 rfl rfl rfl (by decide)
  exact ⟨rfl, h.1, h.2.1 c2WitStep2 rfl, h.2.2.2⟩
